import Mathlib

/-!
Shallow embedding of the liquidation bot engine (`src/bot.py`) and proofs
about its operations.

Conventions used throughout:
- Python unbounded non-negative integers are modelled as `Nat`; Python's
  floor division `//` on non-negative operands is `Nat` division, except
  where the divisor can be `0`: there Python raises `ZeroDivisionError`,
  which is modelled by `Option` (`none` = the exception propagates).
- Python `dict`s (insertion ordered, unique keys) are modelled as
  association lists; `dict_insert` overwrites the first matching key in
  place (keeping its position) and otherwise appends, matching `d[k] = v`;
  `dict_erase` removes the key, matching `del d[k]`.
- The float constants `0.95 * 10**18` and `1.5 * 10**18` in the source
  evaluate to floats whose exact values are the integers
  950000000000000000 and 1500000000000000000, and comparing a Python int
  against a float compares exact values, so the thresholds are embedded
  as those integers.
-/

/-- MAX_UINT sentinel, 2^256 - 1. -/
def MAX_UINT : Nat := 2 ^ 256 - 1

/-- Exact value of the float constant 0.95 * 10**18. -/
def MAX_LIQUIDATION_HF_THRESHOLD : Nat := 950000000000000000

/-- Liquidation threshold, 1 * 10**18. -/
def LIQUIDATION_HF_THRESHOLD : Nat := 1 * 10 ^ 18

/-- Exact value of the float constant 1.5 * 10**18. -/
def AT_RISK_HF_THRESHOLD : Nat := 1500000000000000000

def AT_RISK_BLOCK_CHECK : Nat := 480

def REGULAR_BLOCK_CHECK : Nat := 3600

def MULTICALL_BATCH_SIZE : Nat := 50

def MAX_CLOSE_FACTOR : Nat := 10000

def DEFAULT_CLOSE_FACTOR : Nat := 5000

def NATIVE_ASSET_ADDRESS : String := "0x82aF49447D8a07e3bd95BD0d56f35241523fBab1"

def HALF_BPS : Nat := 5000

def BASE_BPS : Nat := 10000

/-- A borrower's ledger record: health factor (stored as a decimal string in
the CSV-backed dict, parsed back with `int`, hence a `Nat` here) and the
block of the last health-factor update. -/
structure BorrowerRecord where
  health_factor : Nat
  last_hf_update : Nat
deriving DecidableEq, Repr

/-- The borrowers ledger, a Python dict keyed by address. -/
abbrev Ledger := List (String × BorrowerRecord)

/-- Lookup in an insertion-ordered dict (first matching key). -/
def dict_lookup {V : Type} : List (String × V) → String → Option V
  | [], _ => none
  | p :: rest, k => if p.1 = k then some p.2 else dict_lookup rest k

/-- Python `k in d`. -/
def dict_contains {V : Type} (l : List (String × V)) (k : String) : Bool :=
  (dict_lookup l k).isSome

/-- Python `d[k] = v`: overwrite the first entry with key `k` in place,
else append a new entry. -/
def dict_insert {V : Type} : List (String × V) → String → V → List (String × V)
  | [], k, v => [(k, v)]
  | p :: rest, k, v => if p.1 = k then (k, v) :: rest else p :: dict_insert rest k v

/-- Python `del d[k]` (the key is known to be present at every call site
that uses it unconditionally). -/
def dict_erase {V : Type} : List (String × V) → String → List (String × V)
  | [], _ => []
  | p :: rest, k => if p.1 = k then dict_erase rest k else p :: dict_erase rest k

theorem dict_lookup_insert_self {V : Type} (l : List (String × V)) (k : String) (v : V) :
    dict_lookup (dict_insert l k v) k = some v := by
  induction l with
  | nil => simp [dict_insert, dict_lookup]
  | cons p rest ih =>
    by_cases h : p.1 = k
    · simp [dict_insert, h, dict_lookup]
    · simp [dict_insert, h, dict_lookup, ih]

theorem dict_lookup_insert_ne {V : Type} (l : List (String × V)) (k a : String) (v : V)
    (h : a ≠ k) : dict_lookup (dict_insert l k v) a = dict_lookup l a := by
  have hka : ¬ k = a := fun hk => h hk.symm
  induction l with
  | nil => simp [dict_insert, dict_lookup, hka]
  | cons p rest ih =>
    by_cases hp : p.1 = k
    · subst hp
      simp [dict_insert, dict_lookup, hka]
    · simp only [dict_insert, if_neg hp]
      by_cases hpa : p.1 = a
      · simp [dict_lookup, hpa]
      · simp [dict_lookup, hpa, ih]

theorem dict_insert_noop {V : Type} (l : List (String × V)) (k : String) (v : V)
    (h : dict_lookup l k = some v) : dict_insert l k v = l := by
  induction l with
  | nil => simp [dict_lookup] at h
  | cons p rest ih =>
    by_cases hp : p.1 = k
    · simp only [dict_lookup, if_pos hp] at h
      simp only [dict_insert, if_pos hp]
      cases h
      exact congrArg (· :: rest) (Prod.ext hp.symm rfl)
    · simp only [dict_lookup, if_neg hp] at h
      simp [dict_insert, hp, ih h]

theorem mem_dict_insert {V : Type} (l : List (String × V)) (k : String) (v : V)
    (q : String × V) (h : q ∈ dict_insert l k v) : q ∈ l ∨ q = (k, v) := by
  induction l with
  | nil => simp [dict_insert] at h; simp [h]
  | cons p rest ih =>
    by_cases hp : p.1 = k
    · simp only [dict_insert, if_pos hp] at h
      rcases List.mem_cons.mp h with h1 | h1
      · right; exact h1
      · left; exact List.mem_cons_of_mem _ h1
    · simp only [dict_insert, if_neg hp] at h
      rcases List.mem_cons.mp h with h1 | h1
      · left; exact h1 ▸ List.mem_cons_self _ _
      · rcases ih h1 with h2 | h2
        · left; exact List.mem_cons_of_mem _ h2
        · right; exact h2

theorem dict_lookup_erase {V : Type} (l : List (String × V)) (k : String) :
    dict_lookup (dict_erase l k) k = none := by
  induction l with
  | nil => simp [dict_erase, dict_lookup]
  | cons p rest ih =>
    by_cases hp : p.1 = k
    · simp [dict_erase, hp, ih]
    · simp [dict_erase, hp, dict_lookup, ih]

/-- Embedding of `_identify_liquidatable_borrowers`. -/
def identify_liquidatable_borrowers (borrowers : Ledger) : List String :=
  (borrowers.filter
    (fun p => decide (p.2.health_factor < LIQUIDATION_HF_THRESHOLD))).map Prod.fst

/-- CLAIM C4: the liquidatable-borrower identification returns exactly the
addresses whose recorded health factor is strictly below 10^18: every such
borrower is included and every borrower at or above the threshold is
excluded. -/
theorem identify_liquidatable_partition (borrowers : Ledger) (a : String) :
    a ∈ identify_liquidatable_borrowers borrowers ↔
      ∃ rec : BorrowerRecord, (a, rec) ∈ borrowers ∧
        rec.health_factor < LIQUIDATION_HF_THRESHOLD := by
  unfold identify_liquidatable_borrowers
  simp only [List.mem_map, List.mem_filter, decide_eq_true_eq]
  constructor
  · rintro ⟨p, ⟨hmem, hlt⟩, hfst⟩
    exact ⟨p.2, by simpa [← hfst] using hmem, hlt⟩
  · rintro ⟨rec, hmem, hlt⟩
    exact ⟨(a, rec), ⟨hmem, hlt⟩, rfl⟩

/-- Division as Python performs it: `ZeroDivisionError` is `none`. -/
def ndiv : Nat → Nat → Option Nat
  | _, 0 => none
  | n, d => some (n / d)

/-- Embedding of `_percent_mul` (the divisor BASE_BPS is a nonzero
constant, so this is total). -/
def percent_mul (value : Nat) (bps : Nat) : Nat :=
  (HALF_BPS + value * bps) / BASE_BPS

/-- Embedding of `_percent_div`; dividing by `bps = 0` raises. -/
def percent_div (value : Nat) (bps : Nat) : Option Nat :=
  match bps with
  | 0 => none
  | b => some ((b / 2 + value * BASE_BPS) / b)

/-- Per-reserve collateral data assembled by `_build_liquidation_state`. -/
structure CollateralInfo where
  decimals : Nat
  liquidation_bonus : Nat
  price : Nat
  balance : Nat
deriving DecidableEq, Repr

/-- Per-reserve debt data assembled by `_build_liquidation_state`. -/
structure DebtInfo where
  decimals : Nat
  price : Nat
  amount : Nat
deriving DecidableEq, Repr

/-- A borrower's entry in the liquidation state: insertion-ordered dicts of
collateral and debt positions plus the max-liquidation flag. -/
structure BorrowerState where
  collateral : List (String × CollateralInfo)
  debt : List (String × DebtInfo)
  can_be_max_liquidated : Bool
deriving DecidableEq, Repr

/-- The `can_be_max_liquidated` computation of `_get_liquidatable_data`
(line `health_factor < MAX_LIQUIDATION_HF_THRESHOLD`; the float threshold
compares exactly as the integer 95 * 10^16). -/
def can_be_max_liquidated_flag (health_factor : Nat) : Bool :=
  decide (health_factor < MAX_LIQUIDATION_HF_THRESHOLD)

/-- The `debt_to_cover` selection of `_calculate_liquidation_amounts_base`
(full amount when max liquidation is allowed, else the truncating 50%
close factor). -/
def select_debt_to_cover (can_max : Bool) (debt_amount : Nat) : Nat :=
  if can_max then debt_amount
  else debt_amount * DEFAULT_CLOSE_FACTOR / MAX_CLOSE_FACTOR

/-- Embedding of `_calculate_liquidation_amounts_base`. The collateral and
debt records are the dict entries the source looks up by address; `none`
models a `ZeroDivisionError` propagating out. -/
def calculate_liquidation_amounts_base (can_max : Bool)
    (collateral : CollateralInfo) (debt : DebtInfo) : Option (Nat × Nat) :=
  let debt_to_cover := select_debt_to_cover can_max debt.amount
  let collateral_unit := 10 ^ collateral.decimals
  let debt_unit := 10 ^ debt.decimals
  match ndiv (debt.price * debt_to_cover * collateral_unit)
      (collateral.price * debt_unit) with
  | none => none
  | some base_collateral =>
    let collateral_to_liquidate :=
      percent_mul base_collateral collateral.liquidation_bonus
    if collateral_to_liquidate > collateral.balance then
      match percent_div (debt.price * collateral_unit)
          collateral.liquidation_bonus with
      | none => none
      | some pd =>
        match ndiv (collateral.price * collateral.balance * debt_unit) pd with
        | none => none
        | some recomputed => some (collateral.balance, recomputed)
    else some (collateral_to_liquidate, debt_to_cover)

/-- Embedding of `_calculate_liquidation_amounts`: converts the collateral
amount into native-asset units for ranking. -/
def calculate_liquidation_amounts (can_max : Bool) (collateral_addr : String)
    (collateral : CollateralInfo) (debt : DebtInfo) (native_price : Nat) :
    Option (Nat × Nat) :=
  match calculate_liquidation_amounts_base can_max collateral debt with
  | none => none
  | some (collateral_to_liquidate, debt_to_cover) =>
    let collateral_unit := 10 ^ collateral.decimals
    let native_unit := 10 ^ 18
    if collateral_addr = NATIVE_ASSET_ADDRESS then
      some (collateral_to_liquidate, debt_to_cover)
    else
      match ndiv (collateral_to_liquidate * collateral.price * native_unit)
          (native_price * collateral_unit) with
      | none => none
      | some native_value => some (native_value, debt_to_cover)

theorem ndiv_eq_of_pos (n d : Nat) (h : 0 < d) : ndiv n d = some (n / d) := by
  cases d with
  | zero => exact absurd h (lt_irrefl 0)
  | succ m => rfl

theorem percent_div_eq_of_pos (value bps : Nat) (h : 0 < bps) :
    percent_div value bps = some ((bps / 2 + value * BASE_BPS) / bps) := by
  cases bps with
  | zero => exact absurd h (lt_irrefl 0)
  | succ m => rfl

theorem calc_base_none_of_divzero (can_max : Bool) (collateral : CollateralInfo)
    (debt : DebtInfo) (h : collateral.price * 10 ^ debt.decimals = 0) :
    calculate_liquidation_amounts_base can_max collateral debt = none := by
  simp [calculate_liquidation_amounts_base, h, ndiv]

theorem calc_base_nocap_eq (can_max : Bool) (collateral : CollateralInfo) (debt : DebtInfo)
    (hQ : 0 < collateral.price * 10 ^ debt.decimals)
    (hnocap : ¬ collateral.balance <
        percent_mul
          (debt.price * select_debt_to_cover can_max debt.amount * 10 ^ collateral.decimals /
            (collateral.price * 10 ^ debt.decimals)) collateral.liquidation_bonus) :
    calculate_liquidation_amounts_base can_max collateral debt =
      some (percent_mul
          (debt.price * select_debt_to_cover can_max debt.amount * 10 ^ collateral.decimals /
            (collateral.price * 10 ^ debt.decimals)) collateral.liquidation_bonus,
        select_debt_to_cover can_max debt.amount) := by
  simp [calculate_liquidation_amounts_base, ndiv_eq_of_pos _ _ hQ, hnocap]

theorem calc_base_cap_eq (can_max : Bool) (collateral : CollateralInfo) (debt : DebtInfo)
    (hQ : 0 < collateral.price * 10 ^ debt.decimals)
    (hcap : collateral.balance <
        percent_mul
          (debt.price * select_debt_to_cover can_max debt.amount * 10 ^ collateral.decimals /
            (collateral.price * 10 ^ debt.decimals)) collateral.liquidation_bonus) :
    calculate_liquidation_amounts_base can_max collateral debt =
      match percent_div (debt.price * 10 ^ collateral.decimals)
          collateral.liquidation_bonus with
      | none => none
      | some pd =>
        match ndiv (collateral.price * collateral.balance * 10 ^ debt.decimals) pd with
        | none => none
        | some recomputed => some (collateral.balance, recomputed) := by
  simp [calculate_liquidation_amounts_base, ndiv_eq_of_pos _ _ hQ, hcap]

/-- CLAIM C3: `can_be_max_liquidated` is true exactly when the recorded
health factor is strictly below 0.95 * 10^18, and when it is false the
debt to cover selected by the pricing function is the truncating 50%
close factor of the debt amount (and, when the collateral balance does
not cap the liquidation, that is exactly the returned `debt_to_cover`). -/
theorem can_be_max_liquidated_close_factor (health_factor : Nat)
    (collateral : CollateralInfo) (debt : DebtInfo) (r : Nat × Nat)
    (hsucc : calculate_liquidation_amounts_base false collateral debt = some r)
    (hnocap : ¬ collateral.balance <
        percent_mul
          ((debt.price * select_debt_to_cover false debt.amount * 10 ^ collateral.decimals) /
            (collateral.price * 10 ^ debt.decimals)) collateral.liquidation_bonus) :
    (can_be_max_liquidated_flag health_factor = true ↔ health_factor < 95 * 10 ^ 16) ∧
    select_debt_to_cover false debt.amount = debt.amount * 5000 / 10000 ∧
    r.2 = debt.amount * 5000 / 10000 := by
  refine ⟨?_, ?_, ?_⟩
  · simp only [can_be_max_liquidated_flag, MAX_LIQUIDATION_HF_THRESHOLD, decide_eq_true_eq]
    norm_num
  · simp [select_debt_to_cover, DEFAULT_CLOSE_FACTOR, MAX_CLOSE_FACTOR]
  · rcases Nat.eq_zero_or_pos (collateral.price * 10 ^ debt.decimals) with hQ | hQ
    · rw [calc_base_none_of_divzero _ _ _ hQ] at hsucc
      cases hsucc
    · rw [calc_base_nocap_eq false collateral debt hQ hnocap] at hsucc
      cases hsucc
      simp [select_debt_to_cover, DEFAULT_CLOSE_FACTOR, MAX_CLOSE_FACTOR]

/-- Witness for C3 at a concrete input: a borrower at 0.97 * 10^18 is not
max-liquidatable and the selected debt to cover is exactly half the debt,
truncating. -/
theorem can_be_max_liquidated_close_factor_witness :
    calculate_liquidation_amounts_base false ⟨0, 10000, 1, 1000⟩ ⟨0, 1, 10⟩ = some (5, 5) ∧
    ¬ (⟨0, 10000, 1, 1000⟩ : CollateralInfo).balance <
        percent_mul
          ((⟨0, 1, 10⟩ : DebtInfo).price *
              select_debt_to_cover false (⟨0, 1, 10⟩ : DebtInfo).amount *
              10 ^ (⟨0, 10000, 1, 1000⟩ : CollateralInfo).decimals /
            ((⟨0, 10000, 1, 1000⟩ : CollateralInfo).price *
              10 ^ (⟨0, 1, 10⟩ : DebtInfo).decimals))
          (⟨0, 10000, 1, 1000⟩ : CollateralInfo).liquidation_bonus ∧
    ((can_be_max_liquidated_flag (97 * 10 ^ 16) = true ↔ 97 * 10 ^ 16 < 95 * 10 ^ 16) ∧
      select_debt_to_cover false (⟨0, 1, 10⟩ : DebtInfo).amount = 10 * 5000 / 10000 ∧
      (5, 5).2 = 10 * 5000 / 10000) :=
  ⟨by decide, by decide,
    can_be_max_liquidated_close_factor (97 * 10 ^ 16) ⟨0, 10000, 1, 1000⟩ ⟨0, 1, 10⟩ (5, 5)
      (by decide) (by decide)⟩

/-- CLAIM C2 counterexample: with liquidation bonus 20000, collateral price
1, debt price 1, both 0 decimals, balance 3 and debt amount 2 under max
liquidation, the bonus-adjusted collateral (4) exceeds the balance (3), the
returned collateral equals the balance, but the recomputed `debt_to_cover`
is 3, which is strictly GREATER than the uncapped `debt_to_cover` of 2 —
refuting the claimed strict decrease. -/
theorem cap_debt_recompute_counterexample :
    (⟨0, 20000, 1, 3⟩ : CollateralInfo).balance <
      percent_mul
        ((⟨0, 1, 2⟩ : DebtInfo).price *
            select_debt_to_cover true (⟨0, 1, 2⟩ : DebtInfo).amount *
            10 ^ (⟨0, 20000, 1, 3⟩ : CollateralInfo).decimals /
          ((⟨0, 20000, 1, 3⟩ : CollateralInfo).price *
            10 ^ (⟨0, 1, 2⟩ : DebtInfo).decimals))
        (⟨0, 20000, 1, 3⟩ : CollateralInfo).liquidation_bonus ∧
    calculate_liquidation_amounts_base true ⟨0, 20000, 1, 3⟩ ⟨0, 1, 2⟩ = some (3, 3) ∧
    select_debt_to_cover true (⟨0, 1, 2⟩ : DebtInfo).amount = 2 ∧
    ¬ (3 : Nat) < 2 := by
  refine ⟨by decide, by decide, by decide, by decide⟩

/-- CLAIM C2 (amended): whenever the bonus-adjusted collateral amount
exceeds the collateral balance, the pricing function returns a collateral
amount exactly equal to the balance; and provided the liquidation bonus is
at most BASE_BPS, the recomputed `debt_to_cover` is strictly less than the
uncapped one (for bonuses above BASE_BPS the strict decrease can fail, see
the counterexample). -/
theorem cap_debt_recompute (can_max : Bool) (collateral : CollateralInfo)
    (debt : DebtInfo) (r : Nat × Nat)
    (hsucc : calculate_liquidation_amounts_base can_max collateral debt = some r)
    (hcap : collateral.balance <
        percent_mul
          (debt.price * select_debt_to_cover can_max debt.amount * 10 ^ collateral.decimals /
            (collateral.price * 10 ^ debt.decimals)) collateral.liquidation_bonus) :
    r.1 = collateral.balance ∧
    (collateral.liquidation_bonus ≤ BASE_BPS →
      r.2 < select_debt_to_cover can_max debt.amount) := by
  rcases Nat.eq_zero_or_pos (collateral.price * 10 ^ debt.decimals) with hQ0 | hQpos
  · rw [calc_base_none_of_divzero _ _ _ hQ0] at hsucc
    cases hsucc
  · rw [calc_base_cap_eq can_max collateral debt hQpos hcap] at hsucc
    rcases Nat.eq_zero_or_pos collateral.liquidation_bonus with hb0 | hbpos
    · rw [hb0] at hsucc
      simp [percent_div] at hsucc
    · rw [percent_div_eq_of_pos _ _ hbpos] at hsucc
      dsimp only at hsucc
      rcases Nat.eq_zero_or_pos
          ((collateral.liquidation_bonus / 2 +
            debt.price * 10 ^ collateral.decimals * BASE_BPS) /
              collateral.liquidation_bonus) with hpd0 | hpdpos
      · rw [hpd0] at hsucc
        simp [ndiv] at hsucc
      · rw [ndiv_eq_of_pos _ _ hpdpos] at hsucc
        dsimp only at hsucc
        have hr : r = (collateral.balance,
            collateral.price * collateral.balance * 10 ^ debt.decimals /
              ((collateral.liquidation_bonus / 2 +
                debt.price * 10 ^ collateral.decimals * BASE_BPS) /
                  collateral.liquidation_bonus)) := by
          cases hsucc
          rfl
      -- abbreviations for the arithmetic
        subst hr
        refine ⟨rfl, fun hble => ?_⟩
        simp only [BASE_BPS] at hble hpdpos ⊢
        set dtc := select_debt_to_cover can_max debt.amount with hdtc_def
        set Q := collateral.price * 10 ^ debt.decimals with hQ_def
        set P := debt.price * 10 ^ collateral.decimals with hP_def
        set b := collateral.liquidation_bonus with hb_def
        set base := debt.price * dtc * 10 ^ collateral.decimals / Q with hbase_def
        set pd := (b / 2 + P * 10000) / b with hpd_def
        simp only [percent_mul, HALF_BPS, BASE_BPS] at hcap
        -- the cap condition in integer form
        have h1 : (collateral.balance + 1) * 10000 ≤ 5000 + base * b :=
          (Nat.le_div_iff_mul_le (by norm_num)).mp hcap
        have hcap2 : 10000 * collateral.balance + 5000 ≤ base * b := by linarith
        -- the floor bound on base
        have hbase_le : base * Q ≤ P * dtc := by
          calc base * Q ≤ debt.price * dtc * 10 ^ collateral.decimals :=
                Nat.div_mul_le_self _ _
            _ = P * dtc := by rw [hP_def]; ring
        -- base is positive, hence so is the debt price factor P
        have hbase_pos : 0 < base := by
          rcases Nat.eq_zero_or_pos base with h0 | h; · rw [h0] at hcap2; omega
          exact h
        have hP_pos : 0 < P := by
          rcases Nat.eq_zero_or_pos P with h0 | h
          · exfalso
            have hdp : debt.price = 0 := by
              rcases Nat.mul_eq_zero.mp h0 with h2 | h2
              · exact h2
              · have hpow : 0 < (10 : Nat) ^ collateral.decimals :=
                  Nat.pos_pow_of_pos _ (by norm_num)
                omega
            rw [hbase_def, hdp] at hbase_pos
            simp at hbase_pos
          · exact h
        -- key bound: the percent_div result dominates P when b ≤ 10000
        have hpd_ge : P ≤ pd := by
          rw [hpd_def]
          rw [Nat.le_div_iff_mul_le hbpos]
          calc P * b ≤ P * 10000 := mul_le_mul_left' hble P
            _ ≤ b / 2 + P * 10000 := Nat.le_add_left _ _
        -- chain the inequalities
        have hchain : 10000 * (Q * collateral.balance) + 5000 * Q ≤ 10000 * (dtc * pd) := by
          calc 10000 * (Q * collateral.balance) + 5000 * Q
              = (10000 * collateral.balance + 5000) * Q := by ring
            _ ≤ (base * b) * Q := mul_le_mul_right' hcap2 Q
            _ = (base * Q) * b := by ring
            _ ≤ (P * dtc) * b := mul_le_mul_right' hbase_le b
            _ = dtc * (P * b) := by ring
            _ ≤ dtc * (P * 10000) := mul_le_mul_left' (mul_le_mul_left' hble P) dtc
            _ ≤ dtc * (pd * 10000) := mul_le_mul_left' (mul_le_mul_right' hpd_ge 10000) dtc
            _ = 10000 * (dtc * pd) := by ring
        have hlt : Q * collateral.balance < dtc * pd := by
          have h5 : 0 < 5000 * Q := by positivity
          have : 10000 * (Q * collateral.balance) < 10000 * (dtc * pd) :=
            lt_of_lt_of_le (Nat.lt_add_of_pos_right h5) hchain
          exact Nat.lt_of_mul_lt_mul_left this
        have hnum : collateral.price * collateral.balance * 10 ^ debt.decimals =
            Q * collateral.balance := by rw [hQ_def]; ring
        rw [hnum, Nat.div_lt_iff_lt_mul hpdpos]
        exact lt_of_lt_of_le hlt (le_of_eq (by ring))

/-- Witness for the amended C2 at a concrete input: bonus 10000, balance 3,
debt amount 10; the cap fires, the returned collateral is the balance and
the recomputed debt to cover (3) is strictly below the uncapped one (10). -/
theorem cap_debt_recompute_witness :
    calculate_liquidation_amounts_base true ⟨0, 10000, 1, 3⟩ ⟨0, 1, 10⟩ = some (3, 3) ∧
    (⟨0, 10000, 1, 3⟩ : CollateralInfo).balance <
      percent_mul
        ((⟨0, 1, 10⟩ : DebtInfo).price *
            select_debt_to_cover true (⟨0, 1, 10⟩ : DebtInfo).amount *
            10 ^ (⟨0, 10000, 1, 3⟩ : CollateralInfo).decimals /
          ((⟨0, 10000, 1, 3⟩ : CollateralInfo).price *
            10 ^ (⟨0, 1, 10⟩ : DebtInfo).decimals))
        (⟨0, 10000, 1, 3⟩ : CollateralInfo).liquidation_bonus ∧
    ((3, 3).1 = (⟨0, 10000, 1, 3⟩ : CollateralInfo).balance ∧
      ((⟨0, 10000, 1, 3⟩ : CollateralInfo).liquidation_bonus ≤ BASE_BPS →
        (3, 3).2 < select_debt_to_cover true (⟨0, 1, 10⟩ : DebtInfo).amount)) :=
  ⟨by decide, by decide,
    cap_debt_recompute true ⟨0, 10000, 1, 3⟩ ⟨0, 1, 10⟩ (3, 3) (by decide) (by decide)⟩

/-- CLAIM C10 counterexample: all prices strictly positive and a strictly
positive liquidation bonus (30000) do NOT make the pricing path total —
`percent_div` returns 0 in the balance-capped branch and the recomputation
divides by zero. -/
theorem pricing_divzero_counterexample :
    0 < (⟨0, 30000, 1, 0⟩ : CollateralInfo).price ∧
    0 < (⟨0, 1, 1⟩ : DebtInfo).price ∧
    0 < (1 : Nat) ∧
    0 < (⟨0, 30000, 1, 0⟩ : CollateralInfo).liquidation_bonus ∧
    calculate_liquidation_amounts true "C" ⟨0, 30000, 1, 0⟩ ⟨0, 1, 1⟩ 1 = none := by
  refine ⟨by decide, by decide, by decide, by decide, by decide⟩

/-- CLAIM C10 (amended): the liquidation pricing path is total when all
prices involved are strictly positive AND the liquidation bonus is
positive and at most 2 * BASE_BPS; moreover a zero collateral price, and a
zero native price with non-native collateral, each yield a
division-by-zero (`none`). (A zero debt price can never reach the
balance-capped branch, since it forces the bonus-adjusted collateral
amount to 0, which cannot exceed the balance.) -/
theorem pricing_total_of_pos (can_max : Bool) (collateral_addr : String)
    (collateral : CollateralInfo) (debt : DebtInfo) (native_price : Nat)
    (hcp : 0 < collateral.price) (hdp : 0 < debt.price) (hnp : 0 < native_price)
    (hbp : 0 < collateral.liquidation_bonus)
    (hble : collateral.liquidation_bonus ≤ 2 * BASE_BPS) :
    (calculate_liquidation_amounts can_max collateral_addr collateral debt
        native_price).isSome = true ∧
    calculate_liquidation_amounts true "C" ⟨0, 10000, 0, 5⟩ ⟨0, 1, 1⟩ 1 = none ∧
    calculate_liquidation_amounts true "C" ⟨0, 10000, 1, 5⟩ ⟨0, 1, 1⟩ 0 = none := by
  refine ⟨?_, by decide, by decide⟩
  have hQ : 0 < collateral.price * 10 ^ debt.decimals := by positivity
  have hbase : ∃ v : Nat × Nat,
      calculate_liquidation_amounts_base can_max collateral debt = some v := by
    by_cases hcap : collateral.balance <
        percent_mul
          (debt.price * select_debt_to_cover can_max debt.amount * 10 ^ collateral.decimals /
            (collateral.price * 10 ^ debt.decimals)) collateral.liquidation_bonus
    · rw [calc_base_cap_eq can_max collateral debt hQ hcap,
        percent_div_eq_of_pos _ _ hbp]
      dsimp only
      have hP1 : 0 < debt.price * 10 ^ collateral.decimals := by positivity
      have hble2 : collateral.liquidation_bonus ≤ 20000 := by
        simpa [BASE_BPS] using hble
      have hpd : 0 < (collateral.liquidation_bonus / 2 +
          debt.price * 10 ^ collateral.decimals * BASE_BPS) /
            collateral.liquidation_bonus := by
        have h1 : (1 : Nat) ≤ (collateral.liquidation_bonus / 2 +
            debt.price * 10 ^ collateral.decimals * BASE_BPS) /
              collateral.liquidation_bonus := by
          rw [Nat.le_div_iff_mul_le hbp]
          simp only [BASE_BPS]
          omega
        exact h1
      rw [ndiv_eq_of_pos _ _ hpd]
      exact ⟨_, rfl⟩
    · rw [calc_base_nocap_eq can_max collateral debt hQ hcap]
      exact ⟨_, rfl⟩
  obtain ⟨v, hv⟩ := hbase
  obtain ⟨ctl, dtc⟩ := v
  unfold calculate_liquidation_amounts
  rw [hv]
  dsimp only
  by_cases haddr : collateral_addr = NATIVE_ASSET_ADDRESS
  · simp [haddr]
  · rw [if_neg haddr, ndiv_eq_of_pos _ _ (show 0 < native_price * 10 ^ collateral.decimals
      by positivity)]
    rfl

/-- Witness for the amended C10 at a concrete all-positive input. -/
theorem pricing_total_of_pos_witness :
    0 < (⟨0, 10500, 2, 1000⟩ : CollateralInfo).price ∧
    0 < (⟨0, 3, 10⟩ : DebtInfo).price ∧
    0 < (7 : Nat) ∧
    0 < (⟨0, 10500, 2, 1000⟩ : CollateralInfo).liquidation_bonus ∧
    (⟨0, 10500, 2, 1000⟩ : CollateralInfo).liquidation_bonus ≤ 2 * BASE_BPS ∧
    ((calculate_liquidation_amounts true "C" ⟨0, 10500, 2, 1000⟩ ⟨0, 3, 10⟩ 7).isSome = true ∧
      calculate_liquidation_amounts true "C" ⟨0, 10000, 0, 5⟩ ⟨0, 1, 1⟩ 1 = none ∧
      calculate_liquidation_amounts true "C" ⟨0, 10000, 1, 5⟩ ⟨0, 1, 1⟩ 0 = none) :=
  ⟨by decide, by decide, by decide, by decide, by decide,
    pricing_total_of_pos true "C" ⟨0, 10500, 2, 1000⟩ ⟨0, 3, 10⟩ 7
      (by decide) (by decide) (by decide) (by decide) (by decide)⟩

/-- One (collateral, debt) element of the Cartesian product iterated by
`_find_optimal_liquidation_pairs`: the dict entries carry the address used
for the lookups in `_calculate_liquidation_amounts`. -/
abbrev LiqPair := (String × CollateralInfo) × (String × DebtInfo)

/-- The `itertools.product(state.collateral, state.debt)` iteration order:
collateral first, then debt, both in dict insertion order. -/
def liquidation_pairs (state : BorrowerState) : List LiqPair :=
  state.collateral.flatMap (fun c => state.debt.map (fun d => (c, d)))

/-- The best-pair record built by `_find_optimal_liquidation_pairs`. -/
structure BestPair where
  collateral : String
  debt : String
  collateral_to_liquidate_native : Nat
  debt_to_cover : Nat
deriving DecidableEq, Repr

/-- The full pricing result for one pair of the product. -/
def pair_result (can_max : Bool) (native_price : Nat) (p : LiqPair) : Option (Nat × Nat) :=
  calculate_liquidation_amounts can_max p.1.1 p.1.2 p.2.2 native_price

/-- One step of the inner loop of `_find_optimal_liquidation_pairs`:
strictly greater native value replaces the running maximum (ties keep the
earlier pair); a pricing exception aborts the whole scan. -/
def consider_pair (can_max : Bool) (native_price : Nat)
    (acc : Nat × Option BestPair) (p : LiqPair) : Option (Nat × Option BestPair) :=
  match pair_result can_max native_price p with
  | none => none
  | some (v, dtc) =>
    some (if acc.1 < v then (v, some ⟨p.1.1, p.2.1, v, dtc⟩) else acc)

/-- The per-borrower scan of `_find_optimal_liquidation_pairs`, starting
from `max_value = 0`, `best_pair = None`. -/
def find_best_pair (state : BorrowerState) (native_price : Nat) : Option (Option BestPair) :=
  match (liquidation_pairs state).foldlM
      (consider_pair state.can_be_max_liquidated native_price) (0, none) with
  | none => none
  | some acc => some acc.2

/-- Embedding of `_find_optimal_liquidation_pairs` over the whole
liquidation state (borrowers in dict order; a borrower with no best pair
is dropped). -/
def find_optimal_liquidation_pairs (liquidation_state : List (String × BorrowerState))
    (native_price : Nat) : Option (List (String × BestPair)) :=
  liquidation_state.foldlM (fun acc p =>
    match find_best_pair p.2 native_price with
    | none => none
    | some none => some acc
    | some (some bp) => some (acc ++ [(p.1, bp)])) []

theorem consider_fold_spec (c : Bool) (np : Nat) :
    ∀ (l : List LiqPair) (m0 : Nat) (b0 : Option BestPair) (m : Nat) (b : Option BestPair),
      List.foldlM (consider_pair c np) (m0, b0) l = some (m, b) →
      m0 ≤ m ∧
      (∀ q ∈ l, ∃ r : Nat × Nat, pair_result c np q = some r ∧ r.1 ≤ m) ∧
      ((m = m0 ∧ b = b0) ∨
        (m0 < m ∧ ∃ l1 p l2 d, l = l1 ++ p :: l2 ∧
          pair_result c np p = some (m, d) ∧
          b = some ⟨p.1.1, p.2.1, m, d⟩ ∧
          ∀ q ∈ l1, ∀ r : Nat × Nat, pair_result c np q = some r → r.1 < m)) := by
  intro l
  induction l with
  | nil =>
    intro m0 b0 m b h
    simp only [List.foldlM_nil, pure, Option.some.injEq, Prod.mk.injEq] at h
    obtain ⟨hm, hb⟩ := h
    subst hm; subst hb
    exact ⟨le_refl _, by simp, Or.inl ⟨rfl, rfl⟩⟩
  | cons p l ih =>
    intro m0 b0 m b h
    rw [List.foldlM_cons] at h
    cases hp : pair_result c np p with
    | none =>
      simp only [consider_pair, hp] at h
      exact Option.noConfusion h
    | some vd =>
      obtain ⟨v, dtc⟩ := vd
      simp only [consider_pair, hp, Option.some_bind] at h
      by_cases hv : m0 < v
      · simp only [if_pos hv] at h
        obtain ⟨hm_le, hall, hdisj⟩ := ih v (some ⟨p.1.1, p.2.1, v, dtc⟩) m b h
        refine ⟨le_trans (le_of_lt hv) hm_le, ?_, ?_⟩
        · intro q hq
          rcases List.mem_cons.mp hq with rfl | hq2
          · exact ⟨(v, dtc), hp, hm_le⟩
          · exact hall q hq2
        · right
          rcases hdisj with ⟨hm_eq, hb_eq⟩ | ⟨hm_lt, l1, p2, l2, d, hsplit, hp2, hb_eq, hbefore⟩
          · subst hm_eq
            exact ⟨hv, [], p, l, dtc, rfl, hp, hb_eq, by intro q hq; cases hq⟩
          · refine ⟨lt_trans hv hm_lt, p :: l1, p2, l2, d, by rw [hsplit]; rfl, hp2, hb_eq, ?_⟩
            intro q hq r hr
            rcases List.mem_cons.mp hq with rfl | hq2
            · rw [hp] at hr
              cases hr
              exact hm_lt
            · exact hbefore q hq2 r hr
      · simp only [if_neg hv] at h
        obtain ⟨hm_le, hall, hdisj⟩ := ih m0 b0 m b h
        refine ⟨hm_le, ?_, ?_⟩
        · intro q hq
          rcases List.mem_cons.mp hq with rfl | hq2
          · exact ⟨(v, dtc), hp, le_trans (Nat.le_of_not_lt hv) hm_le⟩
          · exact hall q hq2
        · rcases hdisj with hl | ⟨hm_lt, l1, p2, l2, d, hsplit, hp2, hb_eq, hbefore⟩
          · exact Or.inl hl
          · refine Or.inr ⟨hm_lt, p :: l1, p2, l2, d, by rw [hsplit]; rfl, hp2, hb_eq, ?_⟩
            intro q hq r hr
            rcases List.mem_cons.mp hq with rfl | hq2
            · rw [hp] at hr
              cases hr
              exact lt_of_le_of_lt (Nat.le_of_not_lt hv) hm_lt
            · exact hbefore q hq2 r hr

/-- CLAIM C1: for a borrower with at least one collateral and one debt
asset, whenever the finder returns a best pair, (a) every pair of the
Cartesian product prices successfully and its native value is at most the
returned pair's value, and (b) the returned pair is the first pair, in
the stable collateral-then-debt iteration order, attaining that value:
every pair strictly before it has a strictly smaller native value. -/
theorem find_optimal_pair_max (state : BorrowerState) (native_price : Nat) (bp : BestPair)
    (hc : state.collateral ≠ []) (hd : state.debt ≠ [])
    (h : find_best_pair state native_price = some (some bp)) :
    (∀ q ∈ liquidation_pairs state, ∃ r : Nat × Nat,
        pair_result state.can_be_max_liquidated native_price q = some r ∧
        r.1 ≤ bp.collateral_to_liquidate_native) ∧
    (∃ l1 p l2 d, liquidation_pairs state = l1 ++ p :: l2 ∧
        pair_result state.can_be_max_liquidated native_price p =
          some (bp.collateral_to_liquidate_native, d) ∧
        bp = ⟨p.1.1, p.2.1, bp.collateral_to_liquidate_native, d⟩ ∧
        ∀ q ∈ l1, ∀ r : Nat × Nat,
          pair_result state.can_be_max_liquidated native_price q = some r →
            r.1 < bp.collateral_to_liquidate_native) := by
  unfold find_best_pair at h
  cases hacc : List.foldlM (consider_pair state.can_be_max_liquidated native_price)
      (0, none) (liquidation_pairs state) with
  | none => rw [hacc] at h; cases h
  | some acc =>
    rw [hacc] at h
    obtain ⟨m, b⟩ := acc
    simp only [Option.some.injEq] at h
    obtain ⟨hm0, hall, hdisj⟩ :=
      consider_fold_spec state.can_be_max_liquidated native_price
        (liquidation_pairs state) 0 none m b hacc
    rcases hdisj with ⟨hm_eq, hb_eq⟩ | ⟨hm_lt, l1, p, l2, d, hsplit, hpres, hb_eq, hbefore⟩
    · rw [h] at hb_eq
      cases hb_eq
    · rw [h] at hb_eq
      have hbp : bp = ⟨p.1.1, p.2.1, m, d⟩ := Option.some.inj hb_eq
      have hval : bp.collateral_to_liquidate_native = m := by rw [hbp]
      rw [hval]
      exact ⟨hall, l1, p, l2, d, hsplit, hpres, by rw [hbp], hbefore⟩

/-- Witness for C1 at a concrete one-collateral, one-debt state. -/
theorem find_optimal_pair_max_witness :
    (⟨[("C", ⟨0, 10000, 1, 1000⟩)], [("D", ⟨0, 1, 10⟩)], true⟩ :
        BorrowerState).collateral ≠ [] ∧
    (⟨[("C", ⟨0, 10000, 1, 1000⟩)], [("D", ⟨0, 1, 10⟩)], true⟩ :
        BorrowerState).debt ≠ [] ∧
    find_best_pair ⟨[("C", ⟨0, 10000, 1, 1000⟩)], [("D", ⟨0, 1, 10⟩)], true⟩ (10 ^ 18) =
      some (some ⟨"C", "D", 10, 10⟩) ∧
    ((∀ q ∈ liquidation_pairs
          (⟨[("C", ⟨0, 10000, 1, 1000⟩)], [("D", ⟨0, 1, 10⟩)], true⟩ : BorrowerState),
        ∃ r : Nat × Nat, pair_result true (10 ^ 18) q = some r ∧
          r.1 ≤ (10 : Nat)) ∧
      (∃ l1 p l2 d, liquidation_pairs
            (⟨[("C", ⟨0, 10000, 1, 1000⟩)], [("D", ⟨0, 1, 10⟩)], true⟩ : BorrowerState) =
            l1 ++ p :: l2 ∧
          pair_result true (10 ^ 18) p = some (10, d) ∧
          (⟨"C", "D", 10, 10⟩ : BestPair) = ⟨p.1.1, p.2.1, 10, d⟩ ∧
          ∀ q ∈ l1, ∀ r : Nat × Nat, pair_result true (10 ^ 18) q = some r →
            r.1 < (10 : Nat))) := by
  refine ⟨by decide, by decide, by decide, ?_⟩
  exact find_optimal_pair_max ⟨[("C", ⟨0, 10000, 1, 1000⟩)], [("D", ⟨0, 1, 10⟩)], true⟩
    (10 ^ 18) ⟨"C", "D", 10, 10⟩ (by decide) (by decide) (by decide)

/-- CLAIM C9: a borrower with non-empty collateral and debt sets whose
every pair prices to native value 0 gets no candidate (the running maximum
starts at 0 and only strictly greater values are kept), so the borrower is
silently dropped from the optimal-pairs result. The example has a debt
amount of 0, making every pair's native value 0. -/
theorem zero_value_borrower_dropped :
    (⟨[("C", ⟨0, 10000, 1, 5⟩)], [("D", ⟨0, 1, 0⟩)], true⟩ :
        BorrowerState).collateral ≠ [] ∧
    (⟨[("C", ⟨0, 10000, 1, 5⟩)], [("D", ⟨0, 1, 0⟩)], true⟩ :
        BorrowerState).debt ≠ [] ∧
    (∀ q ∈ liquidation_pairs
        (⟨[("C", ⟨0, 10000, 1, 5⟩)], [("D", ⟨0, 1, 0⟩)], true⟩ : BorrowerState),
      pair_result true 1 q = some (0, 0)) ∧
    find_best_pair ⟨[("C", ⟨0, 10000, 1, 5⟩)], [("D", ⟨0, 1, 0⟩)], true⟩ 1 = some none ∧
    find_optimal_liquidation_pairs
      [("B", ⟨[("C", ⟨0, 10000, 1, 5⟩)], [("D", ⟨0, 1, 0⟩)], true⟩)] 1 = some [] := by
  refine ⟨by decide, by decide, by decide, by decide, by decide⟩

/-- Embedding of `handle_borrow`: re-read health factor; a sentinel-max
result is not stored, otherwise the record is upserted. -/
def handle_borrow (borrowers : Ledger) (onBehalfOf : String) (health_factor : Nat)
    (block_number : Nat) : Ledger :=
  if health_factor ≠ MAX_UINT then
    dict_insert borrowers onBehalfOf ⟨health_factor, block_number⟩
  else borrowers

/-- Embedding of `_update_user_data` (used by the Supply/Repay/Withdraw
handlers): a no-op for untracked addresses; for tracked ones a sentinel-max
health factor deletes the record, otherwise both fields are updated. -/
def update_user_data (borrowers : Ledger) (address : String) (health_factor : Nat)
    (block_number : Nat) : Ledger :=
  if dict_contains borrowers address then
    if health_factor = MAX_UINT then dict_erase borrowers address
    else dict_insert borrowers address ⟨health_factor, block_number⟩
  else borrowers

/-- The ledger invariant: no stored record carries the sentinel-max health
factor. -/
def no_sentinel (borrowers : Ledger) : Prop :=
  ∀ p ∈ borrowers, p.2.health_factor ≠ MAX_UINT

instance (borrowers : Ledger) : Decidable (no_sentinel borrowers) := by
  unfold no_sentinel
  infer_instance

/-- CLAIM C6 counterexample: a Borrow event whose re-read health factor is
the sentinel does NOT leave the borrower absent when it was already
tracked — the stale record stays in the ledger. -/
theorem borrow_sentinel_counterexample :
    dict_contains (handle_borrow [("A", ⟨5, 1⟩)] "A" MAX_UINT 2) "A" = true ∧
    handle_borrow [("A", ⟨5, 1⟩)] "A" MAX_UINT 2 = [("A", ⟨5, 1⟩)] := by
  refine ⟨by decide, by decide⟩

/-- CLAIM C6 (amended): every event handler preserves the no-sentinel
ledger invariant; a Borrow event with sentinel health factor leaves the
ledger unchanged (so a not-yet-tracked borrower stays absent, while an
already-tracked one keeps its previous record); and a
Supply/Repay/Withdraw event that drives a tracked borrower's health factor
to the sentinel removes that borrower's record. -/
theorem handlers_sentinel_invariant (borrowers : Ledger) (address : String)
    (health_factor block_number : Nat) (hinv : no_sentinel borrowers) :
    no_sentinel (handle_borrow borrowers address health_factor block_number) ∧
    no_sentinel (update_user_data borrowers address health_factor block_number) ∧
    (health_factor = MAX_UINT →
      handle_borrow borrowers address health_factor block_number = borrowers) ∧
    (health_factor = MAX_UINT → dict_contains borrowers address = true →
      dict_lookup (update_user_data borrowers address health_factor block_number)
        address = none) := by
  refine ⟨?_, ?_, ?_, ?_⟩
  · unfold handle_borrow
    by_cases hm : health_factor = MAX_UINT
    · simp only [hm, ne_eq, not_true_eq_false, if_false]
      exact hinv
    · simp only [ne_eq, hm, not_false_eq_true, if_true]
      intro p hp
      rcases mem_dict_insert _ _ _ p hp with h1 | h1
      · exact hinv p h1
      · rw [h1]
        exact hm
  · unfold update_user_data
    by_cases hc : dict_contains borrowers address
    · rw [if_pos hc]
      by_cases hm : health_factor = MAX_UINT
      · rw [if_pos hm]
        intro p hp
        have : p ∈ borrowers := by
          revert hp
          generalize borrowers = l
          induction l with
          | nil => intro hp; simp [dict_erase] at hp
          | cons q rest ih =>
            intro hp
            by_cases hq : q.1 = address
            · simp only [dict_erase, if_pos hq] at hp
              exact List.mem_cons_of_mem _ (ih hp)
            · simp only [dict_erase, if_neg hq] at hp
              rcases List.mem_cons.mp hp with h1 | h1
              · exact h1 ▸ List.mem_cons_self _ _
              · exact List.mem_cons_of_mem _ (ih h1)
        exact fun hmax => hinv p this hmax
      · rw [if_neg hm]
        intro p hp
        rcases mem_dict_insert _ _ _ p hp with h1 | h1
        · exact hinv p h1
        · rw [h1]
          exact hm
    · rw [if_neg hc]
      exact hinv
  · intro hm
    unfold handle_borrow
    simp [hm]
  · intro hm hc
    unfold update_user_data
    rw [if_pos hc, if_pos hm]
    exact dict_lookup_erase borrowers address

/-- Witness for the amended C6: a tracked borrower whose Repay re-read
returns the sentinel is removed, and handlers preserve the invariant. -/
theorem handlers_sentinel_invariant_witness :
    no_sentinel ([("A", ⟨5, 1⟩)] : Ledger) ∧
    (no_sentinel (handle_borrow [("A", ⟨5, 1⟩)] "A" MAX_UINT 2) ∧
      no_sentinel (update_user_data [("A", ⟨5, 1⟩)] "A" MAX_UINT 2) ∧
      (MAX_UINT = MAX_UINT →
        handle_borrow [("A", ⟨5, 1⟩)] "A" MAX_UINT 2 = [("A", ⟨5, 1⟩)]) ∧
      (MAX_UINT = MAX_UINT → dict_contains ([("A", ⟨5, 1⟩)] : Ledger) "A" = true →
        dict_lookup (update_user_data [("A", ⟨5, 1⟩)] "A" MAX_UINT 2) "A" = none)) :=
  ⟨by decide, handlers_sentinel_invariant [("A", ⟨5, 1⟩)] "A" MAX_UINT 2 (by decide)⟩

/-- A Borrow event as consumed by the historical backfill. -/
structure BorrowLog where
  onBehalfOf : String
  block_number : Nat

/-- Embedding of `_get_unique_borrowers_from_logs`: the Python dict
comprehension keeps first-insertion order and last-written value. -/
def get_unique_borrowers_from_logs (logs : List BorrowLog) : List (String × Nat) :=
  logs.foldl (fun acc log => dict_insert acc log.onBehalfOf log.block_number) []

/-- Fuelled batching helper (`range(0, len(xs), MULTICALL_BATCH_SIZE)`). -/
def chunksGo {α : Type} : Nat → List α → List (List α)
  | 0, _ => []
  | _ + 1, [] => []
  | fuel + 1, l => l.take MULTICALL_BATCH_SIZE :: chunksGo fuel (l.drop MULTICALL_BATCH_SIZE)

/-- Split a list into batches of MULTICALL_BATCH_SIZE. -/
def chunks {α : Type} (l : List α) : List (List α) :=
  chunksGo l.length l

/-- Embedding of `_get_borrowers_health_factors` (iterating the borrower
dict entries, whose keys are the queried addresses): failed results and
sentinel-max health factors are filtered out. -/
def get_borrowers_health_factors (batch : List (String × Nat))
    (query : String → Option Nat) : List ((String × Nat) × Nat) :=
  batch.filterMap (fun p =>
    match query p.1 with
    | none => none
    | some hf => if hf = MAX_UINT then none else some (p, hf))

/-- Embedding of `_process_historical_events`: batch the unique borrowers,
query health factors, and merge successful non-sentinel results into the
persisted ledger (the per-batch load/save round trips thread the ledger). -/
def process_historical_events (db : Ledger) (logs : List BorrowLog)
    (query : String → Option Nat) : Ledger :=
  (chunks (get_unique_borrowers_from_logs logs)).foldl
    (fun cur batch =>
      (get_borrowers_health_factors batch query).foldl
        (fun cur2 r => dict_insert cur2 r.1.1 ⟨r.2, r.1.2⟩) cur)
    db

/-- The effect of one borrower entry on the ledger during backfill. -/
def hstep (query : String → Option Nat) (cur : Ledger) (p : String × Nat) : Ledger :=
  match query p.1 with
  | none => cur
  | some hf => if hf = MAX_UINT then cur else dict_insert cur p.1 ⟨hf, p.2⟩

theorem inner_foldl_eq (query : String → Option Nat) (batch : List (String × Nat)) :
    ∀ cur : Ledger,
      (get_borrowers_health_factors batch query).foldl
        (fun cur2 r => dict_insert cur2 r.1.1 ⟨r.2, r.1.2⟩) cur =
      batch.foldl (hstep query) cur := by
  induction batch with
  | nil => intro cur; rfl
  | cons p rest ih =>
    intro cur
    simp only [get_borrowers_health_factors, List.filterMap_cons] at ih ⊢
    cases hq : query p.1 with
    | none =>
      simp only [List.foldl_cons, hstep, hq]
      exact ih cur
    | some hf =>
      by_cases hmax : hf = MAX_UINT
      · simp [List.foldl_cons, hstep, hq, hmax, ih]
      · simp [List.foldl_cons, hstep, hq, hmax, ih]

theorem chunksGo_foldl {α β : Type} (g : β → α → β) :
    ∀ (fuel : Nat) (l : List α), l.length ≤ fuel → ∀ init : β,
      (chunksGo fuel l).foldl (fun c batch => batch.foldl g c) init = l.foldl g init := by
  intro fuel
  induction fuel with
  | zero =>
    intro l hl init
    have : l = [] := List.eq_nil_of_length_eq_zero (Nat.le_zero.mp hl)
    subst this
    rfl
  | succ n ih =>
    intro l hl init
    cases l with
    | nil => rfl
    | cons a t =>
      have hgo : chunksGo (n + 1) (a :: t) =
          (a :: t).take MULTICALL_BATCH_SIZE ::
            chunksGo n ((a :: t).drop MULTICALL_BATCH_SIZE) := rfl
      rw [hgo, List.foldl_cons]
      have hdrop : ((a :: t).drop MULTICALL_BATCH_SIZE).length ≤ n := by
        simp only [List.length_drop, List.length_cons, MULTICALL_BATCH_SIZE]
        simp only [List.length_cons] at hl
        omega
      rw [ih _ hdrop]
      rw [← List.foldl_append, List.take_append_drop]

theorem process_eq_foldl (db : Ledger) (logs : List BorrowLog)
    (query : String → Option Nat) :
    process_historical_events db logs query =
      (get_unique_borrowers_from_logs logs).foldl (hstep query) db := by
  unfold process_historical_events chunks
  have hfun : (fun (cur : Ledger) (batch : List (String × Nat)) =>
      (get_borrowers_health_factors batch query).foldl
        (fun cur2 r => dict_insert cur2 r.1.1 ⟨r.2, r.1.2⟩) cur) =
      (fun cur batch => batch.foldl (hstep query) cur) := by
    funext cur batch
    exact inner_foldl_eq query batch cur
  rw [hfun]
  exact chunksGo_foldl (hstep query) _ _ (le_refl _) db

theorem dict_keys_insert_nodup {V : Type} (l : List (String × V)) (k : String) (v : V)
    (h : (l.map Prod.fst).Nodup) : ((dict_insert l k v).map Prod.fst).Nodup := by
  induction l with
  | nil => simp [dict_insert]
  | cons p rest ih =>
    simp only [List.map_cons, List.nodup_cons] at h
    by_cases hp : p.1 = k
    · simp only [dict_insert, if_pos hp, List.map_cons, List.nodup_cons]
      exact ⟨hp ▸ h.1, h.2⟩
    · simp only [dict_insert, if_neg hp, List.map_cons, List.nodup_cons]
      refine ⟨?_, ih h.2⟩
      intro hmem
      rcases List.mem_map.mp hmem with ⟨q, hq, hq1⟩
      rcases mem_dict_insert _ _ _ q hq with h1 | h1
      · exact h.1 (hq1 ▸ List.mem_map_of_mem Prod.fst h1)
      · exact hp (by rw [← hq1, h1])

theorem get_unique_keys_nodup (logs : List BorrowLog) :
    ((get_unique_borrowers_from_logs logs).map Prod.fst).Nodup := by
  unfold get_unique_borrowers_from_logs
  suffices h : ∀ acc : List (String × Nat), (acc.map Prod.fst).Nodup →
      ((logs.foldl (fun acc log => dict_insert acc log.onBehalfOf log.block_number)
        acc).map Prod.fst).Nodup by
    exact h [] (by simp)
  induction logs with
  | nil => intro acc hacc; exact hacc
  | cons log rest ih =>
    intro acc hacc
    rw [List.foldl_cons]
    exact ih _ (dict_keys_insert_nodup acc log.onBehalfOf log.block_number hacc)

theorem hstep_lookup_ne (query : String → Option Nat) (cur : Ledger)
    (p : String × Nat) (a : String) (h : a ≠ p.1) :
    dict_lookup (hstep query cur p) a = dict_lookup cur a := by
  unfold hstep
  cases query p.1 with
  | none => rfl
  | some hf =>
    dsimp only
    by_cases hmax : hf = MAX_UINT
    · rw [if_pos hmax]
    · rw [if_neg hmax]
      exact dict_lookup_insert_ne cur p.1 a ⟨hf, p.2⟩ h

theorem foldl_hstep_lookup_not_mem (query : String → Option Nat)
    (B : List (String × Nat)) :
    ∀ (db : Ledger) (a : String), a ∉ B.map Prod.fst →
      dict_lookup (B.foldl (hstep query) db) a = dict_lookup db a := by
  induction B with
  | nil => intro db a _; rfl
  | cons q T ih =>
    intro db a ha
    simp only [List.map_cons, List.mem_cons, not_or] at ha
    rw [List.foldl_cons, ih _ a ha.2]
    exact hstep_lookup_ne query db q a ha.1

theorem foldl_hstep_correct (query : String → Option Nat) (B : List (String × Nat)) :
    ∀ db : Ledger, (B.map Prod.fst).Nodup →
      ∀ p ∈ B, ∀ hf : Nat, query p.1 = some hf → hf ≠ MAX_UINT →
        dict_lookup (B.foldl (hstep query) db) p.1 = some ⟨hf, p.2⟩ := by
  induction B with
  | nil => intro db _ p hp; cases hp
  | cons q T ih =>
    intro db hnodup p hp hf hq hmax
    simp only [List.map_cons, List.nodup_cons] at hnodup
    rw [List.foldl_cons]
    rcases List.mem_cons.mp hp with rfl | hpT
    · rw [foldl_hstep_lookup_not_mem query T _ p.1 hnodup.1]
      unfold hstep
      rw [hq]
      dsimp only
      rw [if_neg hmax]
      exact dict_lookup_insert_self db p.1 ⟨hf, p.2⟩
    · exact ih _ hnodup.2 p hpT hf hq hmax

theorem foldl_hstep_id (query : String → Option Nat) (B : List (String × Nat)) :
    ∀ db : Ledger, (∀ p ∈ B, hstep query db p = db) →
      B.foldl (hstep query) db = db := by
  induction B with
  | nil => intro db _; rfl
  | cons q T ih =>
    intro db hall
    rw [List.foldl_cons, hall q (List.mem_cons_self _ _)]
    exact ih db (fun p hp => hall p (List.mem_cons_of_mem _ hp))

/-- CLAIM C7: replaying the same historical range twice (same logs, same
chain responses) yields the same ledger as replaying it once, and the
unique-borrowers map is last-write-wins: the block of the latest Borrow
by an address is the one recorded. -/
theorem process_historical_idempotent :
    (∀ (db : Ledger) (logs : List BorrowLog) (query : String → Option Nat),
      process_historical_events (process_historical_events db logs query) logs query =
        process_historical_events db logs query) ∧
    (∀ (logs : List BorrowLog) (ev : BorrowLog),
      dict_lookup (get_unique_borrowers_from_logs (logs ++ [ev])) ev.onBehalfOf =
        some ev.block_number) := by
  constructor
  · intro db logs query
    rw [process_eq_foldl, process_eq_foldl]
    apply foldl_hstep_id
    intro p hp
    unfold hstep
    cases hq : query p.1 with
    | none => rfl
    | some hf =>
      dsimp only
      by_cases hmax : hf = MAX_UINT
      · rw [if_pos hmax]
      · rw [if_neg hmax]
        exact dict_insert_noop _ _ _
          (foldl_hstep_correct query (get_unique_borrowers_from_logs logs) db
            (get_unique_keys_nodup logs) p hp hf hq hmax)
  · intro logs ev
    unfold get_unique_borrowers_from_logs
    rw [List.foldl_append, List.foldl_cons, List.foldl_nil]
    exact dict_lookup_insert_self _ _ _

/-- Descending-by-native-value ordering used by the executor's sort. -/
def pair_value_ge (a b : String × BestPair) : Prop :=
  b.2.collateral_to_liquidate_native ≤ a.2.collateral_to_liquidate_native

instance : DecidableRel pair_value_ge := fun a b =>
  inferInstanceAs (Decidable (b.2.collateral_to_liquidate_native ≤
    a.2.collateral_to_liquidate_native))

instance : IsTotal (String × BestPair) pair_value_ge :=
  ⟨fun a b => le_total b.2.collateral_to_liquidate_native a.2.collateral_to_liquidate_native⟩

instance : IsTrans (String × BestPair) pair_value_ge :=
  ⟨fun _ _ _ h1 h2 => le_trans h2 h1⟩

/-- Python's `sorted(pairs, key=value, reverse=True)`: a stable descending
sort, embedded as insertion sort with the descending relation (stable
sorts with the same relation agree). -/
def sort_pairs_desc (optimal_pairs : List (String × BestPair)) : List (String × BestPair) :=
  List.insertionSort pair_value_ge optimal_pairs

/-- The counters returned by `_execute_liquidations`. -/
structure ExecStats where
  liquidations_attempted : Nat
  liquidations_executed : Nat
deriving DecidableEq, Repr

/-- The submission loop: every pair is attempted in order; a failed
submission (`submit` false, the caught exception) leaves the counter
unchanged and continues with the rest. -/
def exec_loop (submit : String → BestPair → Bool) :
    List (String × BestPair) → Nat → Nat
  | [], executed => executed
  | p :: rest, executed =>
    exec_loop submit rest (if submit p.1 p.2 then executed + 1 else executed)

/-- Embedding of `_execute_liquidations`: empty input short-circuits; the
pairs are sorted by native value descending; without a signer this is a
dry run (nothing executed); otherwise every pair is attempted. -/
def execute_liquidations (optimal_pairs : List (String × BestPair)) (has_signer : Bool)
    (submit : String → BestPair → Bool) : ExecStats :=
  if optimal_pairs = [] then ⟨0, 0⟩
  else
    let sorted_pairs := sort_pairs_desc optimal_pairs
    if has_signer then
      ⟨sorted_pairs.length, exec_loop submit sorted_pairs 0⟩
    else ⟨sorted_pairs.length, 0⟩

theorem exec_loop_count (submit : String → BestPair → Bool) :
    ∀ (l : List (String × BestPair)) (n : Nat),
      exec_loop submit l n = n + (l.filter (fun p => submit p.1 p.2)).length := by
  intro l
  induction l with
  | nil => intro n; simp [exec_loop]
  | cons p rest ih =>
    intro n
    by_cases hs : submit p.1 p.2
    · simp only [exec_loop, hs, if_true, List.filter_cons, ih]
      simp [Nat.add_comm, Nat.add_assoc, Nat.add_left_comm]
    · simp only [exec_loop, hs, if_false, List.filter_cons, ih]
      simp [hs]

/-- CLAIM C8: the executor attempts candidates as a permutation of the
input sorted in descending order of native value ([50, 200, 10] is
attempted as [200, 50, 10]); a failed submission does not abort the rest,
so the attempted count is the number of candidates and the executed count
is the number of successful submissions over the whole sorted list. -/
theorem execute_liquidations_order :
    (∀ (pairs : List (String × BestPair)) (submit : String → BestPair → Bool),
      (sort_pairs_desc pairs).Perm pairs ∧
      List.Sorted pair_value_ge (sort_pairs_desc pairs) ∧
      (execute_liquidations pairs true submit).liquidations_attempted = pairs.length ∧
      (execute_liquidations pairs true submit).liquidations_executed =
        ((sort_pairs_desc pairs).filter (fun p => submit p.1 p.2)).length) ∧
    sort_pairs_desc
        [("a", ⟨"C", "D", 50, 1⟩), ("b", ⟨"C", "D", 200, 1⟩), ("c", ⟨"C", "D", 10, 1⟩)] =
      [("b", ⟨"C", "D", 200, 1⟩), ("a", ⟨"C", "D", 50, 1⟩), ("c", ⟨"C", "D", 10, 1⟩)] ∧
    exec_loop (fun s _ => decide (s ≠ "a"))
      (sort_pairs_desc
        [("a", ⟨"C", "D", 50, 1⟩), ("b", ⟨"C", "D", 200, 1⟩), ("c", ⟨"C", "D", 10, 1⟩)])
      0 = 2 := by
  refine ⟨?_, by decide, by decide⟩
  intro pairs submit
  refine ⟨List.perm_insertionSort pair_value_ge pairs,
    List.sorted_insertionSort pair_value_ge pairs, ?_, ?_⟩
  · unfold execute_liquidations
    by_cases hnil : pairs = []
    · simp [hnil]
    · simp only [hnil, if_false, if_true]
      exact (List.perm_insertionSort pair_value_ge pairs).length_eq
  · unfold execute_liquidations
    by_cases hnil : pairs = []
    · simp [hnil, sort_pairs_desc]
    · simp only [hnil, if_false, if_true]
      rw [exec_loop_count submit (sort_pairs_desc pairs) 0]
      exact Nat.zero_add _

/-- The counters dict returned by `_sync_health_factors`; the empty-due
early return omits the `removed_count` key, hence the `Option`. -/
structure SyncCounters where
  updated_count : Nat
  removed_count : Option Nat
  at_risk_checked : Nat
  safe_checked : Nat
  total_checked : Nat
deriving DecidableEq, Repr

/-- Python `d[k].update(...)`: raises `KeyError` (`none`) when absent. -/
def dict_update_record (borrowers : Ledger) (b : String) (hf blk : Nat) : Option Ledger :=
  if dict_contains borrowers b then some (dict_insert borrowers b ⟨hf, blk⟩) else none

/-- Python `del d[k]` with its `KeyError` (`none`) when the key is absent. -/
def dict_del (borrowers : Ledger) (b : String) : Option Ledger :=
  if dict_contains borrowers b then some (dict_erase borrowers b) else none

/-- At-risk due filter: health factor below 1.5 * 10^18 and more than 480
blocks since the last check (block arithmetic over the integers, as in
Python). -/
def at_risk_due (current_block : Nat) (p : String × BorrowerRecord) : Bool :=
  decide (p.2.health_factor < AT_RISK_HF_THRESHOLD ∧
    (current_block : Int) - (p.2.last_hf_update : Int) > (AT_RISK_BLOCK_CHECK : Int))

/-- Safe due filter: health factor at least 1.5 * 10^18 and more than 3600
blocks since the last check. -/
def safe_due (current_block : Nat) (p : String × BorrowerRecord) : Bool :=
  decide (AT_RISK_HF_THRESHOLD ≤ p.2.health_factor ∧
    (current_block : Int) - (p.2.last_hf_update : Int) > (REGULAR_BLOCK_CHECK : Int))

/-- Embedding of `_sync_health_factors`. The accumulator carries the
ledger, the updated counter, and `borrowers_to_remove`, which the source
initialises once OUTSIDE the batch loop and never clears, while the
removal loop after every batch iterates the whole list again; a repeated
`del` of an already-removed borrower raises `KeyError` (`none`). -/
def sync_health_factors (borrowers : Ledger) (query : String → Option Nat)
    (current_block : Nat) : Option (Ledger × SyncCounters) :=
  let at_risk_borrowers := (borrowers.filter (at_risk_due current_block)).map Prod.fst
  let safe_borrowers := (borrowers.filter (safe_due current_block)).map Prod.fst
  let borrowers_to_check := at_risk_borrowers ++ safe_borrowers
  if borrowers_to_check = [] then
    some (borrowers, ⟨0, none, 0, 0, 0⟩)
  else
    match (chunks borrowers_to_check).foldlM
        (fun (acc : Ledger × Nat × List String) batch => do
          let step1 ← batch.foldlM
            (fun (acc2 : Ledger × Nat × List String) b =>
              match query b with
              | none => some acc2
              | some health_factor =>
                if health_factor = MAX_UINT then
                  some (acc2.1, acc2.2.1, acc2.2.2 ++ [b])
                else
                  match dict_update_record acc2.1 b health_factor current_block with
                  | none => none
                  | some st2 => some (st2, acc2.2.1 + 1, acc2.2.2)) acc
          let st3 ← step1.2.2.foldlM (fun (st : Ledger) b => dict_del st b) step1.1
          some (st3, step1.2.1, step1.2.2))
        (borrowers, 0, ([] : List String)) with
    | none => none
    | some fin =>
      some (fin.1, ⟨fin.2.1, some fin.2.2.length, at_risk_borrowers.length,
        safe_borrowers.length, borrowers_to_check.length⟩)

/-- A ledger of 51 tracked at-risk borrowers, all due for a recheck. -/
def c5_borrowers : Ledger :=
  (List.range 51).map (fun i => ("b" ++ toString i, ⟨0, 0⟩))

/-- Chain responses: borrower "b0" (in the first batch of 50) reports the
sentinel max, everyone else reports health factor 1. -/
def c5_query (a : String) : Option Nat :=
  if a = "b0" then some MAX_UINT else some 1

/-- CLAIM C5: with 51 due borrowers (two batches) and a sentinel result in
the first batch, the sync does NOT complete: `borrowers_to_remove` is
never cleared between batches, so the removal loop after the second batch
deletes "b0" a second time and raises `KeyError` — modelled as `none`. -/
theorem sync_health_factors_keyerror :
    sync_health_factors c5_borrowers c5_query 4000 = none := by
  rfl
